import Mathlib

/-!
# Verification of the Script Manager metadata and process-launch logic

Shallow embedding of `src/app.py` (a Tkinter "Script Manager" GUI).
The persisted state is the Python dict `script_metadata : str -> float`
(epoch seconds of the last run, `0` meaning "never ran"); we model epoch
times as `Nat` and the dict as an association list with Python-dict
operations (`m[k] = v`, `del m[k]`, `k in m`, `m.get(k, 0)`).  File-system
and subprocess effects are modelled by oracles (what `os.listdir` returns,
what each `subprocess.run` call produces) and by explicit event traces
(dialogs shown, commands spawned, files written).
-/

namespace ScriptManager

/-- The `script_metadata` dict: script name to last-run epoch seconds. -/
abbrev Metadata := List (String × Nat)

/-- The keys of the dict, in insertion order (`script_metadata.keys()`). -/
def keysOf (m : Metadata) : List String := m.map Prod.fst

/-- Dict lookup, `script_metadata[k]` / `k in script_metadata`. -/
def dictGet : Metadata → String → Option Nat
  | [], _ => none
  | p :: rest, k => if p.1 = k then some p.2 else dictGet rest k

/-- Dict assignment `m[k] = v`: replaces the entry in place, or appends. -/
def dictSet : Metadata → String → Nat → Metadata
  | [], k, v => [(k, v)]
  | p :: rest, k, v => if p.1 = k then (k, v) :: rest else p :: dictSet rest k v

/-- Dict deletion `del m[k]`.  A dict holds at most one entry per key, so
removing every pair with key `k` is the same as removing its entry. -/
def dictDel : Metadata → String → Metadata
  | [], _ => []
  | p :: rest, k => if p.1 = k then dictDel rest k else p :: dictDel rest k

/-- `script_metadata.get(s, 0)`, the sort key used by `update_script_list`. -/
def sortKey (m : Metadata) (s : String) : Nat := (dictGet m s).getD 0

/-- First loop of `update_script_list` (app.py:472-474):
`for script in scripts: if script not in script_metadata:
script_metadata[script] = 0`. -/
def add_missing (m : Metadata) (scripts : List String) : Metadata :=
  scripts.foldl (fun acc s => if (dictGet acc s).isSome then acc else dictSet acc s 0) m

/-- Second loop of `update_script_list` (app.py:475-477):
`for script in list(script_metadata.keys()): if script not in scripts:
del script_metadata[script]`.  `ks` is the key snapshot taken by `list(...)`. -/
def remove_stale (ks scripts : List String) (m : Metadata) : Metadata :=
  ks.foldl (fun acc k => if k ∈ scripts then acc else dictDel acc k) m

/-- The metadata synchronisation performed by `update_script_list`
(app.py:470-477). -/
def sync_metadata (m : Metadata) (scripts : List String) : Metadata :=
  remove_stale (keysOf (add_missing m scripts)) scripts (add_missing m scripts)

/-- In-memory dict (`script_metadata`) together with the decoded content of
the JSON metadata file (`script_metadata.json`); `save_metadata()` copies the
former into the latter. -/
structure AppState where
  mem : Metadata
  file : Metadata
deriving DecidableEq

/-- One entry of the scripts folder as seen on disk; `os.listdir` reports
both directories and plain files. -/
structure DirEntry where
  name : String
  isDir : Bool
deriving DecidableEq

/-- `os.listdir(SCRIPTS_DIR)`: the names of all entries, files included. -/
def listdir (d : List DirEntry) : List String := d.map DirEntry.name

/-- `update_script_list` (app.py:459-484): sync the metadata with the
directory listing, save it, and return the displayed order
`sorted(scripts, key=lambda s: script_metadata.get(s, 0), reverse=True)`
(a stable descending sort, which stable insertion sort realises). -/
def update_script_list (disk : List DirEntry) (st : AppState) : AppState × List String :=
  let scripts := listdir disk
  let m2 := sync_metadata st.mem scripts
  (⟨m2, m2⟩, List.insertionSort (fun a b => sortKey m2 b ≤ sortKey m2 a) scripts)

/-- `os.path.join` with the POSIX separator. -/
def ospJoin (a b : String) : String := a ++ "/" ++ b

/-- Observable effects of `run_script` beyond the metadata update. -/
inductive RunEvent where
  | errorDialog (msg : String)
  | fileWrite (path contents : String)
  | chmodX (path : String)
  | spawnShell (command : String)
  | spawnArgs (args : List String)
deriving DecidableEq

/-- Inputs of one `run_script` call: the script name, `platform.system()`,
whether `scripts/<name>/main.py` exists, and the current epoch time
(`time.time()`). -/
structure RunInput where
  scriptName : String
  system : String
  mainExists : Bool
  now : Nat
deriving DecidableEq

/-- The Windows launch command of app.py:733. -/
def windows_command (script_name python_executable script_path : String) : String :=
  "start cmd /k \"echo Running script " ++ script_name ++
    " && echo. && echo. && \"" ++ python_executable ++ "\" \"" ++ script_path ++ "\"\""

/-- The temporary `run_script.sh` contents written on macOS (app.py:737-743). -/
def mac_temp_contents (script_name python_executable script_path : String) : String :=
  "rm -- \"$0\"\n#!/bin/bash\necho \x27Running script " ++ script_name ++
    "\x27\necho\necho\n\x27" ++ python_executable ++ "\x27 \x27" ++ script_path ++ "\x27\n"

/-- The argument handed to `x-terminal-emulator -e` on Linux (app.py:751). -/
def linux_terminal_arg (script_name python_executable script_path : String) : String :=
  "echo \x27Running script " ++ script_name ++ "\x27 && echo && echo && \x27" ++
    python_executable ++ "\x27 \x27" ++ script_path ++ "\x27"

/-- `run_script` (app.py:713-755).  It first stamps the metadata and saves it
(lines 714-716), then checks for `main.py`, then dispatches on the OS. -/
def run_script (baseDir : String) (inp : RunInput) (st : AppState) : AppState × List RunEvent :=
  let m2 := dictSet st.mem inp.scriptName inp.now
  let st2 : AppState := ⟨m2, m2⟩
  let env_path := ospJoin (ospJoin baseDir "environments") inp.scriptName
  let script_path := ospJoin (ospJoin (ospJoin baseDir "scripts") inp.scriptName) "main.py"
  if inp.mainExists = false then
    (st2, [.errorDialog "Script not found!"])
  else
    let python_executable :=
      if inp.system = "Windows" then ospJoin (ospJoin env_path "Scripts") "python.exe"
      else ospJoin (ospJoin env_path "bin") "python"
    if inp.system = "Windows" then
      (st2, [.spawnShell (windows_command inp.scriptName python_executable script_path)])
    else if inp.system = "Darwin" then
      let temp := ospJoin baseDir "run_script.sh"
      (st2, [.fileWrite temp (mac_temp_contents inp.scriptName python_executable script_path),
             .chmodX temp,
             .spawnArgs ["open", "-a", "Terminal.app", temp]])
    else if inp.system = "Linux" then
      (st2, [.spawnArgs ["x-terminal-emulator", "-e",
               linux_terminal_arg inp.scriptName python_executable script_path]])
    else
      (st2, [.errorDialog "Unsupported operating system!"])

/-- The two events that touch the metadata map: a list refresh
(`update_script_list`) and a run (`run_script`). -/
inductive MEvent where
  | refresh (disk : List DirEntry)
  | runScript (baseDir : String) (inp : RunInput)
deriving DecidableEq

/-- State transition of the metadata for one event. -/
def app_step (st : AppState) : MEvent → AppState
  | .refresh disk => (update_script_list disk st).1
  | .runScript baseDir inp => (run_script baseDir inp st).1

/-- `k` gains an entry in the metadata map across event `e`. -/
def createdB (st : AppState) (e : MEvent) (k : String) : Bool :=
  (dictGet st.mem k).isNone && (dictGet (app_step st e).mem k).isSome

/-- `k` loses its entry in the metadata map across event `e`. -/
def deletedB (st : AppState) (e : MEvent) (k : String) : Bool :=
  (dictGet st.mem k).isSome && (dictGet (app_step st e).mem k).isNone

/-- `e` is a run of script `k`. -/
def isRunOf (e : MEvent) (k : String) : Bool :=
  match e with
  | .runScript _ inp => inp.scriptName == k
  | _ => false

/-- `e` is a refresh that observes the directory of `k` gone. -/
def isRemovalOf (e : MEvent) (k : String) : Bool :=
  match e with
  | .refresh disk => !(listdir disk).contains k
  | _ => false

/-- Number of terminal processes spawned by a `run_script` event list. -/
def spawnCount (evs : List RunEvent) : Nat :=
  evs.countP (fun e => match e with
    | .spawnShell _ => true
    | .spawnArgs _ => true
    | _ => false)

/-! ## JSON persistence (`save_metadata`, app.py:60-63, and startup load,
app.py:29-31) -/

/-- JSON values, as produced by `json.dump` / consumed by `json.load`. -/
inductive Json where
  | num (n : Nat)
  | str (s : String)
  | bool (b : Bool)
  | null
  | arr (elems : List Json)
  | obj (fields : List (String × Json))

/-- `save_metadata()`: `json.dump(script_metadata, ...)` writes the dict as
one JSON object whose values are the timestamps. -/
def save_metadata (m : Metadata) : Json :=
  .obj (m.map (fun p => (p.1, .num p.2)))

/-- Decode the fields of a JSON object back into the metadata dict. -/
def decode_fields : List (String × Json) → Option Metadata
  | [] => some []
  | (k, Json.num n) :: rest => (decode_fields rest).map (fun t => (k, n) :: t)
  | _ => none

/-- `json.load` of the metadata file, read back as the flat dict. -/
def load_metadata : Json → Option Metadata
  | .obj fields => decode_fields fields
  | _ => none

/-- Startup (app.py:25-31): `script_metadata = {}`, then if the metadata
file exists its JSON content replaces the dict. -/
def startup_metadata (fileExists : Bool) (contents : Json) : Option Metadata :=
  if fileExists then load_metadata contents else some []

/-- The JSON value is a single flat object whose values are all numbers. -/
def is_flat_map : Json → Bool
  | .obj fields => fields.all (fun p => match p.2 with | .num _ => true | _ => false)
  | _ => false

/-- The keys of a JSON object. -/
def objKeys : Json → List String
  | .obj fields => fields.map Prod.fst
  | _ => []

/-! ## pyenv interaction (`get_available_python_versions`,
`get_latest_available_python_version`, `get_pyenv_python_path`, app.py:66-180)

Subprocess calls are modelled by an oracle `SubprocOutcome` (either the
process ran with a return code and output, or `subprocess.run` raised
`FileNotFoundError`).  We embed the non-Windows command variants; the
Windows branches differ only in the command string and `shell=True`.
`packaging.version.parse` is an external library and is treated as a
parameter: a partial parse `String → Option K` into a linearly ordered key
type together with the `is_prerelease` / `is_devrelease` predicates. -/

/-- Python exceptions that reach the handlers in app.py, reduced to the
constructor and the `str(e)` message. -/
inductive PyExc where
  | valueError (msg : String)
  | runtimeError (msg : String)
  | fileNotFound (msg : String)
deriving DecidableEq

/-- `str(e)` of the exception. -/
def PyExc.msg : PyExc → String
  | .valueError m => m
  | .runtimeError m => m
  | .fileNotFound m => m

/-- Result of one `subprocess.run(..., check=False)` call. -/
inductive SubprocOutcome where
  | ran (returncode : Int) (stdout stderr : String)
  | notFound (msg : String)
deriving DecidableEq

/-- Python `s.startswith(pre)`: character-level prefix test. -/
def str_startswith (s pre : String) : Bool :=
  pre.data.isPrefixOf s.data

/-- Python `s.strip()`: remove leading and trailing whitespace. -/
def str_strip (s : String) : String :=
  String.mk (((s.data.dropWhile Char.isWhitespace).reverse.dropWhile Char.isWhitespace).reverse)

/-- Python `s.splitlines()` for newline-separated text. -/
def str_splitlines (s : String) : List String :=
  (s.data.splitOnP (fun c => c == '\n')).map String.mk

/-- Python truthiness of a string: `not s` is true exactly when `s` is empty. -/
def str_isEmpty (s : String) : Bool :=
  s.data.isEmpty

/-- Python `needle in haystack` on strings. -/
def strContains (h n : String) : Bool :=
  (List.range (h.data.length + 1)).any (fun i => n.data.isPrefixOf (h.data.drop i))

/-- `get_pyenv_python_path` (app.py:66-104): runs `pyenv which python3`;
`FileNotFoundError` becomes `FileNotFoundError("pyenv is not installed or
not in PATH.")`, a non-zero exit becomes a wrapped `RuntimeError`, success
returns `result.stdout.strip()`. -/
def get_pyenv_python_path (python_version : String) (o : SubprocOutcome) : Except PyExc String :=
  match o with
  | .notFound _ => .error (.fileNotFound "pyenv is not installed or not in PATH.")
  | .ran rc out err =>
    if rc ≠ 0 then
      .error (.runtimeError
        (s!"Failed to locate pyenv-managed Python {python_version}:\n" ++
         "Command \x27[\x27pyenv\x27, \x27which\x27, \x27python3\x27]\x27 returned non-zero exit status " ++
         toString rc ++ s!".\nSTDOUT:\n{out}\nSTDERR:\n{err}"))
    else .ok (str_strip out)

/-- The distribution keywords excluded from the version list (app.py:143). -/
def excluded_keywords : List String := ["Anaconda", "Stackless", "Miniconda", "MicroPython"]

/-- The cleanup loop of `get_available_python_versions` (app.py:133-147):
split the stripped stdout into lines, strip each, drop blanks, comments and
non-standard distributions. -/
def clean_versions (out : String) : List String :=
  ((str_splitlines (str_strip out)).map str_strip).filter
    (fun v => !str_isEmpty v && !str_startswith v "#" &&
      !excluded_keywords.any (fun kw => strContains v kw))

/-- `get_available_python_versions` (app.py:107-149): runs
`pyenv install --list`; every failure is wrapped by the catch-all into
`RuntimeError(f"Error fetching available Python versions: {e}")`. -/
def get_available_python_versions (o : SubprocOutcome) : Except PyExc (List String) :=
  match o with
  | .notFound m => .error (.runtimeError ("Error fetching available Python versions: " ++ m))
  | .ran rc out err =>
    if rc ≠ 0 then
      .error (.runtimeError
        ("Error fetching available Python versions: Failed to get available Python versions.\nSTDERR:\n"
          ++ err))
    else .ok (clean_versions out)

/-- The versions that start with the prefix and parse to a stable (neither
pre-release nor development) version (app.py:157-170). -/
def stable_matching {K : Type} (parse : String → Option K) (isPre isDev : K → Bool)
    (versions : List String) (pfx : String) : List String :=
  (versions.filter (fun v => str_startswith v pfx)).filter
    (fun v => match parse v with
      | some k => !isPre k && !isDev k
      | none => false)

/-- Comparison by parsed key, the order used by
`stable_versions.sort(key=version.parse)`. -/
def key_le {K : Type} [LinearOrder K] (parse : String → Option K) (a b : String) : Bool :=
  match parse a, parse b with
  | some x, some y => decide (x ≤ y)
  | none, _ => true
  | some _, none => false

/-- The message of the catch-all wrapper of
`get_latest_available_python_version` (app.py:180). -/
def latest_err_msg (pfx inner : String) : String :=
  s!"Error finding latest Python version matching \x27{pfx}\x27: {inner}"

/-- `get_latest_available_python_version` (app.py:152-180): filter the
available versions by prefix, keep the stable ones, sort by
`version.parse` (a stable ascending sort) and take the last element.  Every
exception raised inside, the two `ValueError`s included, is caught by the
final `except Exception` and re-raised as a wrapped `RuntimeError`. -/
def get_latest_available_python_version {K : Type} [LinearOrder K]
    (parse : String → Option K) (isPre isDev : K → Bool)
    (avail : Except PyExc (List String)) (pfx : String) : Except PyExc String :=
  match avail with
  | .error e => .error (.runtimeError (latest_err_msg pfx e.msg))
  | .ok versions =>
    let matching := versions.filter (fun v => str_startswith v pfx)
    if matching.isEmpty then
      .error (.runtimeError (latest_err_msg pfx
        ("No available Python versions found matching \x27" ++ pfx ++ "\x27.")))
    else
      let stable := stable_matching parse isPre isDev versions pfx
      if stable.isEmpty then
        .error (.runtimeError (latest_err_msg pfx
          ("No stable Python versions found matching \x27" ++ pfx ++ "\x27.")))
      else
        match (List.insertionSort (fun a b => key_le parse a b = true) stable).getLast? with
        | some v => .ok v
        | none => .error (.runtimeError (latest_err_msg pfx "list index out of range"))

/-! ## `setup_venv` (app.py:183-276)

The background `run_setup` thread is linearised into an event trace.  The
external world is an oracle `SetupWorld`: the outcome of each subprocess
call and of the file-system checks, in program order. -/

/-- The external commands `run_setup` can issue, one constructor per call
site. -/
inductive CmdKind where
  | listVersions
  | checkInstalled
  | pyenvInstall
  | pyenvWhich
  | venvCreate
  | pipInstall
deriving DecidableEq

/-- Observable UI events of `run_setup`. -/
inductive UIEvent where
  | status (msg : String)
  | resetStatus
  | disableRun
  | enableRun
  | infoDialog (title : Option String) (msg : String)
  | errorDialog (msg : String)
  | installPyenvWindow
  | cmdRun (k : CmdKind)
deriving DecidableEq

/-- Result of a `subprocess.run(..., check=True)` call: either it succeeded
or it raised (`CalledProcessError` / `FileNotFoundError`), reduced to
`str(e)`. -/
inductive CheckedOutcome where
  | ok
  | fail (msg : String)
deriving DecidableEq

/-- The oracle for one `run_setup` execution. -/
structure SetupWorld where
  /-- `pyenv install --list` inside `get_available_python_versions`. -/
  listOutcome : SubprocOutcome
  /-- `is_python_version_installed(python_version)` (never raises). -/
  installed : Bool
  /-- `pyenv install <version>` (app.py:228-235). -/
  installOutcome : SubprocOutcome
  /-- `pyenv which python3` inside `get_pyenv_python_path`. -/
  whichOutcome : SubprocOutcome
  /-- `os.path.exists(env_path)` (app.py:250). -/
  envExists : Bool
  /-- `python -m venv <env_path>` with `check=True` (app.py:251). -/
  venvOutcome : CheckedOutcome
  /-- `pip install -r requirements.txt` with `check=True` (app.py:259-262). -/
  pipOutcome : CheckedOutcome
deriving DecidableEq

/-- How the `try` body of `run_setup` ends. -/
inductive BodyExit where
  | success
  | earlyValueError (msg : String)
  | raised (msg : String)
deriving DecidableEq

/-- The condition of app.py:199-202 under which `handle_error` additionally
opens the pyenv installation guide. -/
def pyenv_missing_trigger (msg : String) : Bool :=
  strContains msg "pyenv is not installed" || strContains msg "pyenv: command not found"

/-- The pip-install step (app.py:259-265) and the success dialog. -/
def setup_pip_step (w : SetupWorld) (script_name : String) : List UIEvent × BodyExit :=
  match w.pipOutcome with
  | .ok => ([.cmdRun .pipInstall,
             .infoDialog (some "Success")
               s!"Virtual environment for {script_name} created successfully!"], .success)
  | .fail m => ([.cmdRun .pipInstall], .raised m)

/-- The venv-creation step (app.py:250-251): the venv is only created when
`env_path` does not exist yet. -/
def setup_env_step (w : SetupWorld) (script_name : String) : List UIEvent × BodyExit :=
  if w.envExists then setup_pip_step w script_name
  else
    match w.venvOutcome with
    | .ok =>
      let r := setup_pip_step w script_name
      (.cmdRun .venvCreate :: r.1, r.2)
    | .fail m => ([.cmdRun .venvCreate], .raised m)

/-- Locating the interpreter (app.py:244-248) and the info dialog that
precedes venv creation (app.py:248). -/
def setup_which_step (w : SetupWorld) (script_name python_version : String) :
    List UIEvent × BodyExit :=
  match get_pyenv_python_path python_version w.whichOutcome with
  | .error e => ([.cmdRun .pyenvWhich], .raised e.msg)
  | .ok python_executable =>
    if str_isEmpty python_executable then
      ([.cmdRun .pyenvWhich], .raised s!"Could not find Python {python_version}")
    else
      let r := setup_env_step w script_name
      (.cmdRun .pyenvWhich ::
        .infoDialog none s!"Creating virtual environment for {script_name}." :: r.1, r.2)

/-- Checking whether the version is installed and installing it via pyenv
when it is not (app.py:216-241). -/
def setup_install_step (w : SetupWorld) (script_name python_version : String) :
    List UIEvent × BodyExit :=
  if w.installed then
    let r := setup_which_step w script_name python_version
    (.cmdRun .checkInstalled :: r.1, r.2)
  else
    let pre : List UIEvent :=
      [.cmdRun .checkInstalled,
       .status s!"Installing Python {python_version} via pyenv...",
       .cmdRun .pyenvInstall]
    match w.installOutcome with
    | .notFound m => (pre, .raised m)
    | .ran rc out err =>
      if rc ≠ 0 then
        (pre, .raised
          (s!"Failed to install Python {python_version} via pyenv.\n" ++
           s!"Command output:\nSTDOUT:\n{out}\nSTDERR:\n{err}"))
      else
        let r := setup_which_step w script_name python_version
        (pre ++ r.1, r.2)

/-- The `try` body of `run_setup` (app.py:205-265): resolve the version via
`get_latest_available_python_version` (its `ValueError`s never escape it,
so the `except ValueError` branch of app.py:209-211 is dead), then install /
locate / create / pip-install. -/
def setup_body {K : Type} [LinearOrder K] (parse : String → Option K)
    (isPre isDev : K → Bool) (w : SetupWorld) (script_name pv_input : String) :
    List UIEvent × BodyExit :=
  match get_latest_available_python_version parse isPre isDev
      (get_available_python_versions w.listOutcome) pv_input with
  | .error (.valueError m) => ([.cmdRun .listVersions], .earlyValueError m)
  | .error e => ([.cmdRun .listVersions], .raised e.msg)
  | .ok python_version =>
    let r := setup_install_step w script_name python_version
    (.cmdRun .listVersions :: .status s!"Using Python {python_version}" :: r.1, r.2)

/-- The full observable trace of one `run_setup` execution: button toggling
and status resets (app.py:190-193 and 269-273), the body, and `handle_error`
(app.py:195-203), which shows the single error dialog and opens the pyenv
installation guide exactly when the message matches
`pyenv_missing_trigger`. -/
def setup_venv_trace {K : Type} [LinearOrder K] (parse : String → Option K)
    (isPre isDev : K → Bool) (w : SetupWorld) (script_name pv_input : String)
    (hasRunButton : Bool) : List UIEvent :=
  let r := setup_body parse isPre isDev w script_name pv_input
  (if hasRunButton then [UIEvent.disableRun] else []) ++
    UIEvent.status "Setting up virtual environment..." :: r.1 ++
    (match r.2 with
     | .success => []
     | .earlyValueError m => [UIEvent.errorDialog m]
     | .raised m =>
       UIEvent.errorDialog m ::
         (if pyenv_missing_trigger m then [UIEvent.installPyenvWindow] else [])) ++
    (if hasRunButton then [UIEvent.enableRun] else []) ++ [UIEvent.resetStatus]

/-- Is the event a modal error dialog? -/
def isErrorDialogEvt : UIEvent → Bool
  | .errorDialog _ => true
  | _ => false

/-- Is the event the success info dialog? -/
def isSuccessInfoEvt : UIEvent → Bool
  | .infoDialog (some t) _ => t == "Success"
  | _ => false

/-- Is the event the pyenv installation guide window? -/
def isInstallWinEvt : UIEvent → Bool
  | .installPyenvWindow => true
  | _ => false

/-- How many times command `k` was issued in the trace. -/
def cmdCount (t : List UIEvent) (k : CmdKind) : Nat :=
  t.countP (fun e => match e with | .cmdRun k2 => k2 == k | _ => false)

/-- Invariant of each `run_setup` step: no error dialog and no installation
guide among its own events, the success dialog appears exactly on a
successful exit, and each command in `allowed` is issued at most once while
no other command is issued at all. -/
def StepSpec (allowed : List CmdKind) (r : List UIEvent × BodyExit) : Prop :=
  r.1.countP isErrorDialogEvt = 0 ∧
  r.1.countP isInstallWinEvt = 0 ∧
  r.1.countP isSuccessInfoEvt = (if r.2 = BodyExit.success then 1 else 0) ∧
  ∀ k, cmdCount r.1 k ≤ (if k ∈ allowed then 1 else 0)

/-!
## Lemmas: the dict operations
-/

theorem dictGet_dictSet (m : Metadata) (k k' : String) (v : Nat) :
    dictGet (dictSet m k v) k' = if k' = k then some v else dictGet m k' := by
  induction m with
  | nil =>
    simp only [dictSet, dictGet]
    by_cases h : k' = k
    · simp [h]
    · simp [h, Ne.symm h]
  | cons p rest ih =>
    simp only [dictSet]
    by_cases hp : p.1 = k
    · subst hp
      simp only [if_pos rfl, dictGet]
      by_cases h : p.1 = k'
      · rw [if_pos h, if_pos h.symm]
      · simp [h, Ne.symm h]
    · simp only [if_neg hp, dictGet]
      by_cases h2 : p.1 = k'
      · have hne : ¬ k' = k := fun hh => hp (h2.trans hh)
        simp [h2, hne]
      · simp [h2, ih]

theorem dictGet_dictDel (m : Metadata) (k k' : String) :
    dictGet (dictDel m k) k' = if k' = k then none else dictGet m k' := by
  induction m with
  | nil => simp [dictDel, dictGet]
  | cons p rest ih =>
    simp only [dictDel]
    by_cases hp : p.1 = k
    · subst hp
      rw [if_pos rfl, ih]
      simp only [dictGet]
      by_cases h : k' = p.1
      · simp [h]
      · simp [h, Ne.symm h]
    · simp only [if_neg hp, dictGet]
      by_cases h2 : p.1 = k'
      · have hne : ¬ k' = k := fun hh => hp (h2.trans hh)
        simp [h2, hne]
      · simp [h2, ih]

theorem mem_keysOf_of_isSome {m : Metadata} {k : String}
    (h : (dictGet m k).isSome) : k ∈ keysOf m := by
  induction m with
  | nil => simp [dictGet] at h
  | cons p rest ih =>
    simp only [keysOf, List.map_cons, List.mem_cons]
    by_cases hp : p.1 = k
    · exact Or.inl hp.symm
    · exact Or.inr (ih (by simpa [dictGet, hp] using h))

/-!
## Lemmas: the two loops of `update_script_list`
-/

theorem dictGet_add_missing_some (scripts : List String) :
    ∀ (m : Metadata) {k : String} {v : Nat}, dictGet m k = some v →
      dictGet (add_missing m scripts) k = some v := by
  induction scripts with
  | nil => intro m k v h; simpa [add_missing] using h
  | cons s rest ih =>
    intro m k v h
    have hstep : add_missing m (s :: rest)
        = add_missing (if (dictGet m s).isSome then m else dictSet m s 0) rest := by
      simp [add_missing]
    rw [hstep]
    by_cases hs : (dictGet m s).isSome
    · rw [if_pos hs]; exact ih m h
    · rw [if_neg hs]
      apply ih
      rw [dictGet_dictSet]
      by_cases hk : k = s
      · exact absurd (by rw [← hk]; simp [h]) hs
      · simpa [hk] using h

theorem dictGet_add_missing_none (scripts : List String) :
    ∀ (m : Metadata) {k : String}, dictGet m k = none →
      dictGet (add_missing m scripts) k = if k ∈ scripts then some 0 else none := by
  induction scripts with
  | nil => intro m k h; simpa [add_missing] using h
  | cons s rest ih =>
    intro m k h
    have hstep : add_missing m (s :: rest)
        = add_missing (if (dictGet m s).isSome then m else dictSet m s 0) rest := by
      simp [add_missing]
    rw [hstep]
    by_cases hk : k = s
    · subst hk
      have hs : ¬ (dictGet m k).isSome := by simp [h]
      rw [if_neg hs]
      have h0 : dictGet (dictSet m k 0) k = some 0 := by simp [dictGet_dictSet]
      rw [dictGet_add_missing_some rest _ h0]
      simp
    · by_cases hs : (dictGet m s).isSome
      · rw [if_pos hs, ih m h]
        simp [hk]
      · rw [if_neg hs]
        have h' : dictGet (dictSet m s 0) k = none := by
          rw [dictGet_dictSet, if_neg hk]; exact h
        rw [ih _ h']
        simp [hk]

theorem dictGet_remove_stale_mem (ks scripts : List String) {k : String} (hk : k ∈ scripts) :
    ∀ m : Metadata, dictGet (remove_stale ks scripts m) k = dictGet m k := by
  induction ks with
  | nil => intro m; simp [remove_stale]
  | cons k0 rest ih =>
    intro m
    have hstep : remove_stale (k0 :: rest) scripts m
        = remove_stale rest scripts (if k0 ∈ scripts then m else dictDel m k0) := by
      simp [remove_stale]
    rw [hstep]
    by_cases h0 : k0 ∈ scripts
    · rw [if_pos h0, ih]
    · rw [if_neg h0, ih, dictGet_dictDel]
      exact if_neg (fun hh : k = k0 => h0 (hh ▸ hk))

theorem dictGet_remove_stale_none (ks scripts : List String) {k : String} :
    ∀ m : Metadata, dictGet m k = none → dictGet (remove_stale ks scripts m) k = none := by
  induction ks with
  | nil => intro m h; simpa [remove_stale] using h
  | cons k0 rest ih =>
    intro m h
    have hstep : remove_stale (k0 :: rest) scripts m
        = remove_stale rest scripts (if k0 ∈ scripts then m else dictDel m k0) := by
      simp [remove_stale]
    rw [hstep]
    by_cases h0 : k0 ∈ scripts
    · rw [if_pos h0]; exact ih m h
    · rw [if_neg h0]
      apply ih
      rw [dictGet_dictDel]
      by_cases hk : k = k0 <;> simp [hk, h]

theorem dictGet_remove_stale_kill (ks scripts : List String) {k : String}
    (hks : k ∈ ks) (hs : k ∉ scripts) :
    ∀ m : Metadata, dictGet (remove_stale ks scripts m) k = none := by
  induction ks with
  | nil => exact absurd hks (List.not_mem_nil k)
  | cons k0 rest ih =>
    intro m
    have hstep : remove_stale (k0 :: rest) scripts m
        = remove_stale rest scripts (if k0 ∈ scripts then m else dictDel m k0) := by
      simp [remove_stale]
    rw [hstep]
    by_cases hkk : k = k0
    · subst hkk
      rw [if_neg hs]
      exact dictGet_remove_stale_none rest scripts _ (by rw [dictGet_dictDel]; simp)
    · have hrest : k ∈ rest := by
        rcases List.mem_cons.mp hks with h | h
        · exact absurd h hkk
        · exact h
      exact ih hrest _

theorem dictGet_sync_metadata (m : Metadata) (scripts : List String) (k : String) :
    dictGet (sync_metadata m scripts) k =
      if k ∈ scripts then some ((dictGet m k).getD 0) else none := by
  unfold sync_metadata
  by_cases hk : k ∈ scripts
  · rw [dictGet_remove_stale_mem _ _ hk]
    cases h : dictGet m k with
    | none => rw [dictGet_add_missing_none scripts m h, if_pos hk]; simp [hk]
    | some v => rw [dictGet_add_missing_some scripts m h]; simp [hk]
  · cases h1 : dictGet (add_missing m scripts) k with
    | none => rw [dictGet_remove_stale_none _ _ _ h1]; simp [hk]
    | some v =>
      have hmem : k ∈ keysOf (add_missing m scripts) :=
        mem_keysOf_of_isSome (by simp [h1])
      rw [dictGet_remove_stale_kill _ _ hmem hk]
      simp [hk]

theorem update_script_list_mem (disk : List DirEntry) (st : AppState) :
    ((update_script_list disk st).1).mem = sync_metadata st.mem (listdir disk) := rfl

theorem update_script_list_snd (disk : List DirEntry) (st : AppState) :
    (update_script_list disk st).2 =
      List.insertionSort
        (fun a b => sortKey (sync_metadata st.mem (listdir disk)) b ≤
          sortKey (sync_metadata st.mem (listdir disk)) a) (listdir disk) := rfl

/-- A list that is pairwise descending in `key` is its non-zero part
followed by its zero part. -/
theorem sorted_desc_partition (key : String → Nat) :
    ∀ l : List String, List.Pairwise (fun a b => key b ≤ key a) l →
      l = l.filter (fun s => !(key s == 0)) ++ l.filter (fun s => key s == 0) := by
  intro l h
  induction l with
  | nil => rfl
  | cons x rest ih =>
    rcases List.pairwise_cons.mp h with ⟨hx, hrest⟩
    by_cases hk : key x = 0
    · have hall : ∀ y ∈ rest, key y = 0 := fun y hy => Nat.le_zero.mp (hk ▸ hx y hy)
      have hf1 : rest.filter (fun s => !(key s == 0)) = [] := by
        rw [List.filter_eq_nil_iff]
        intro a ha; simp [hall a ha]
      have hf2 : rest.filter (fun s => key s == 0) = rest := by
        rw [List.filter_eq_self]
        intro a ha; simp [hall a ha]
      simp [List.filter_cons, hk, hf1, hf2]
    · have hrest2 := ih hrest
      conv_lhs => rw [hrest2]
      simp [List.filter_cons, hk]

/-- C2: after `update_script_list` returns, the key set of the metadata map
equals the set of names listed in the scripts directory: every listed name
not yet in the map is added with last-run value 0, keys of listed names keep
their value, every key no longer listed is deleted, and the resulting map is
saved (the file copy equals the in-memory map). -/
theorem C2_sync_key_set (disk : List DirEntry) (st : AppState) :
    (∀ k, (dictGet ((update_script_list disk st).1).mem k).isSome ↔ k ∈ listdir disk) ∧
    (∀ s, s ∈ listdir disk → dictGet st.mem s = none →
      dictGet ((update_script_list disk st).1).mem s = some 0) ∧
    (∀ k v, k ∈ listdir disk → dictGet st.mem k = some v →
      dictGet ((update_script_list disk st).1).mem k = some v) ∧
    (∀ k, k ∉ listdir disk → dictGet ((update_script_list disk st).1).mem k = none) ∧
    ((update_script_list disk st).1).file = ((update_script_list disk st).1).mem := by
  rw [update_script_list_mem]
  refine ⟨fun k => ?_, fun s hs h0 => ?_, fun k v hk hv => ?_, fun k hk => ?_, rfl⟩
  · rw [dictGet_sync_metadata]
    by_cases hk : k ∈ listdir disk <;> simp [hk]
  · rw [dictGet_sync_metadata, if_pos hs, h0]; rfl
  · rw [dictGet_sync_metadata, if_pos hk, hv]; rfl
  · rw [dictGet_sync_metadata, if_neg hk]

/-- Witness for C2 at a concrete directory and state. -/
theorem C2_sync_key_set_witness :
    (dictGet ((update_script_list [⟨"a", true⟩, ⟨"b", true⟩]
        ⟨[("b", 5), ("c", 9)], [("b", 5), ("c", 9)]⟩).1).mem "a").isSome ∧
    dictGet ((update_script_list [⟨"a", true⟩, ⟨"b", true⟩]
        ⟨[("b", 5), ("c", 9)], [("b", 5), ("c", 9)]⟩).1).mem "a" = some 0 ∧
    dictGet ((update_script_list [⟨"a", true⟩, ⟨"b", true⟩]
        ⟨[("b", 5), ("c", 9)], [("b", 5), ("c", 9)]⟩).1).mem "b" = some 5 ∧
    dictGet ((update_script_list [⟨"a", true⟩, ⟨"b", true⟩]
        ⟨[("b", 5), ("c", 9)], [("b", 5), ("c", 9)]⟩).1).mem "c" = none := by
  have h := C2_sync_key_set [⟨"a", true⟩, ⟨"b", true⟩]
    ⟨[("b", 5), ("c", 9)], [("b", 5), ("c", 9)]⟩
  exact ⟨(h.1 "a").mpr (by decide),
         h.2.1 "a" (by decide) (by decide),
         h.2.2.1 "b" 5 (by decide) (by decide),
         h.2.2.2.1 "c" (by decide)⟩

/-- C10: the displayed list is the directory listing sorted by stored
last-run timestamp in descending order: it is a permutation of the listing,
pairwise descending in the (synced) timestamps, and all never-ran scripts
(timestamp 0) come after every script with a positive timestamp. -/
theorem C10_display_descending (disk : List DirEntry) (st : AppState) :
    List.Perm (update_script_list disk st).2 (listdir disk) ∧
    List.Pairwise
      (fun a b => sortKey ((update_script_list disk st).1).mem b ≤
        sortKey ((update_script_list disk st).1).mem a)
      (update_script_list disk st).2 ∧
    (update_script_list disk st).2 =
      ((update_script_list disk st).2).filter
        (fun s => !(sortKey ((update_script_list disk st).1).mem s == 0)) ++
      ((update_script_list disk st).2).filter
        (fun s => sortKey ((update_script_list disk st).1).mem s == 0) := by
  rw [update_script_list_mem, update_script_list_snd]
  set m2 := sync_metadata st.mem (listdir disk) with hm2
  set r := fun a b => sortKey m2 b ≤ sortKey m2 a with hr
  haveI : IsTotal String r := ⟨fun a b => le_total (sortKey m2 b) (sortKey m2 a)⟩
  haveI : IsTrans String r := ⟨fun _ _ _ hab hbc => le_trans hbc hab⟩
  have hsorted : List.Pairwise r (List.insertionSort r (listdir disk)) :=
    List.sorted_insertionSort r (listdir disk)
  exact ⟨List.perm_insertionSort r (listdir disk), hsorted,
    sorted_desc_partition (sortKey m2) _ hsorted⟩

/-- C7, as stated ("`update_script_list` enumerates exactly the script
directories present on disk: every directory there appears in the displayed
list, and nothing that is not a script directory is included"), is false:
`os.listdir` also returns plain files, which are then displayed.  Concrete
input: a scripts folder holding a directory `alpha` and a plain file
`notes.txt`; the displayed list contains `notes.txt`. -/
theorem C7_counterexample :
    ¬ (∀ (disk : List DirEntry) (st : AppState),
        (∀ e ∈ disk, e.isDir = true → e.name ∈ (update_script_list disk st).2) ∧
        (∀ n ∈ (update_script_list disk st).2,
          ∃ e ∈ disk, e.name = n ∧ e.isDir = true)) := by
  intro h
  have h2 := (h [⟨"alpha", true⟩, ⟨"notes.txt", false⟩] ⟨[], []⟩).2
  have h3 := h2 "notes.txt" (by decide)
  exact absurd h3 (by decide)

/-- C7 amended: `update_script_list` displays exactly the names returned by
`os.listdir` on the scripts folder — every entry of the folder, directory
or not; in particular every script directory appears. -/
theorem C7_amended_display_is_listing (disk : List DirEntry) (st : AppState) :
    ∀ n, n ∈ (update_script_list disk st).2 ↔ n ∈ listdir disk := by
  intro n
  rw [update_script_list_snd]
  exact (List.perm_insertionSort _ (listdir disk)).mem_iff

theorem run_script_state (baseDir : String) (inp : RunInput) (st : AppState) :
    (run_script baseDir inp st).1 =
      ⟨dictSet st.mem inp.scriptName inp.now, dictSet st.mem inp.scriptName inp.now⟩ := by
  simp only [run_script]
  by_cases h1 : inp.mainExists = false <;> by_cases h2 : inp.system = "Windows" <;>
    by_cases h3 : inp.system = "Darwin" <;> by_cases h4 : inp.system = "Linux" <;>
    simp [h1, h2, h3, h4]

/-- C1, as stated ("an entry is created when the script is first run and
deleted when its directory is removed; no other event creates or deletes an
entry"), is false: a mere list refresh creates entries for newly observed
directories.  Concrete input: the empty map and a refresh that lists
directory `a` — the refresh creates the entry `a ↦ 0` although `a` was never
run. -/
theorem C1_counterexample :
    ¬ (∀ (st : AppState) (e : MEvent) (k : String),
        (createdB st e k = true → isRunOf e k = true) ∧
        (deletedB st e k = true → isRemovalOf e k = true)) := by
  intro h
  exact absurd ((h ⟨[], []⟩ (.refresh [⟨"a", true⟩]) "a").1 (by decide)) (by decide)

/-- C1 amended: an entry is created either by a refresh that observes the
script's directory in the scripts folder (initialised to 0, "never ran") or
by running the script (set to the current time); an entry is deleted only by
a refresh that observes the directory gone. -/
theorem C1_amended_lifecycle (st : AppState) (e : MEvent) (k : String) :
    (createdB st e k = true →
      (∃ disk, e = MEvent.refresh disk ∧ k ∈ listdir disk ∧
        dictGet (app_step st e).mem k = some 0) ∨
      (∃ baseDir inp, e = MEvent.runScript baseDir inp ∧ inp.scriptName = k ∧
        dictGet (app_step st e).mem k = some inp.now)) ∧
    (deletedB st e k = true → ∃ disk, e = MEvent.refresh disk ∧ k ∉ listdir disk) := by
  constructor
  · intro hc
    simp only [createdB, Bool.and_eq_true, Option.isNone_iff_eq_none,
      Option.isSome_iff_exists] at hc
    obtain ⟨h1, v, h2⟩ := hc
    cases e with
    | refresh disk =>
      left
      have hmem : (app_step st (MEvent.refresh disk)).mem
          = sync_metadata st.mem (listdir disk) := rfl
      rw [hmem, dictGet_sync_metadata] at h2
      by_cases hk : k ∈ listdir disk
      · refine ⟨disk, rfl, hk, ?_⟩
        rw [hmem, dictGet_sync_metadata, if_pos hk, h1]; rfl
      · rw [if_neg hk] at h2; exact absurd h2 (by simp)
    | runScript b inp =>
      right
      have hmem : (app_step st (MEvent.runScript b inp)).mem
          = dictSet st.mem inp.scriptName inp.now := by
        show ((run_script b inp st).1).mem = _
        rw [run_script_state]
      rw [hmem, dictGet_dictSet] at h2
      by_cases hk : k = inp.scriptName
      · exact ⟨b, inp, rfl, hk.symm, by rw [hmem, dictGet_dictSet, if_pos hk]⟩
      · rw [if_neg hk, h1] at h2; exact absurd h2 (by simp)
  · intro hd
    simp only [deletedB, Bool.and_eq_true, Option.isSome_iff_exists,
      Option.isNone_iff_eq_none] at hd
    obtain ⟨⟨v, h1⟩, h2⟩ := hd
    cases e with
    | refresh disk =>
      have hmem : (app_step st (MEvent.refresh disk)).mem
          = sync_metadata st.mem (listdir disk) := rfl
      rw [hmem, dictGet_sync_metadata] at h2
      by_cases hk : k ∈ listdir disk
      · rw [if_pos hk] at h2; exact absurd h2 (by simp)
      · exact ⟨disk, rfl, hk⟩
    | runScript b inp =>
      have hmem : (app_step st (MEvent.runScript b inp)).mem
          = dictSet st.mem inp.scriptName inp.now := by
        show ((run_script b inp st).1).mem = _
        rw [run_script_state]
      rw [hmem, dictGet_dictSet] at h2
      by_cases hk : k = inp.scriptName
      · rw [if_pos hk] at h2; exact absurd h2 (by simp)
      · rw [if_neg hk, h1] at h2; exact absurd h2 (by simp)

/-- Witness for the amended C1 at a concrete refresh. -/
theorem C1_amended_lifecycle_witness :
    (∃ disk, MEvent.refresh [⟨"a", true⟩] = MEvent.refresh disk ∧ "a" ∈ listdir disk ∧
      dictGet (app_step ⟨[], []⟩ (MEvent.refresh [⟨"a", true⟩])).mem "a" = some 0) ∨
    (∃ baseDir inp, MEvent.refresh [⟨"a", true⟩] = MEvent.runScript baseDir inp ∧
      inp.scriptName = "a" ∧
      dictGet (app_step ⟨[], []⟩ (MEvent.refresh [⟨"a", true⟩])).mem "a" = some inp.now) :=
  (C1_amended_lifecycle ⟨[], []⟩ (MEvent.refresh [⟨"a", true⟩]) "a").1 (by decide)

/-- C3: `run_script` sets the metadata entry of the script to the current
time, persists the whole map (file copy = in-memory map), and leaves every
other entry unchanged. -/
theorem C3_run_script_sets_and_frames (baseDir : String) (inp : RunInput) (st : AppState) :
    dictGet ((run_script baseDir inp st).1).mem inp.scriptName = some inp.now ∧
    (∀ k, k ≠ inp.scriptName →
      dictGet ((run_script baseDir inp st).1).mem k = dictGet st.mem k) ∧
    ((run_script baseDir inp st).1).file = ((run_script baseDir inp st).1).mem := by
  rw [run_script_state]
  refine ⟨?_, fun k hk => ?_, rfl⟩
  · show dictGet (dictSet st.mem inp.scriptName inp.now) inp.scriptName = some inp.now
    rw [dictGet_dictSet, if_pos rfl]
  · show dictGet (dictSet st.mem inp.scriptName inp.now) k = dictGet st.mem k
    rw [dictGet_dictSet, if_neg hk]

/-- Witness for C3 at a concrete run. -/
theorem C3_run_script_sets_and_frames_witness :
    dictGet ((run_script "B" ⟨"a", "Linux", true, 42⟩ ⟨[("b", 1)], [("b", 1)]⟩).1).mem "a"
      = some 42 ∧
    dictGet ((run_script "B" ⟨"a", "Linux", true, 42⟩ ⟨[("b", 1)], [("b", 1)]⟩).1).mem "b"
      = dictGet ([("b", 1)] : Metadata) "b" := by
  have h := C3_run_script_sets_and_frames "B" ⟨"a", "Linux", true, 42⟩ ⟨[("b", 1)], [("b", 1)]⟩
  exact ⟨h.1, h.2.1 "b" (by decide)⟩

/-- C8: `run_script` stamps and persists the timestamp before the `main.py`
existence check, so a run that fails with the "Script not found!" dialog
(and spawns nothing) has already changed the persisted metadata. -/
theorem C8_stamp_before_check (baseDir : String) (inp : RunInput) (st : AppState)
    (h : inp.mainExists = false) :
    ((run_script baseDir inp st).1).file = dictSet st.mem inp.scriptName inp.now ∧
    dictGet ((run_script baseDir inp st).1).file inp.scriptName = some inp.now ∧
    (run_script baseDir inp st).2 = [RunEvent.errorDialog "Script not found!"] ∧
    spawnCount (run_script baseDir inp st).2 = 0 ∧
    (dictGet st.file inp.scriptName ≠ some inp.now →
      ((run_script baseDir inp st).1).file ≠ st.file) := by
  have hrun : run_script baseDir inp st
      = (⟨dictSet st.mem inp.scriptName inp.now, dictSet st.mem inp.scriptName inp.now⟩,
         [RunEvent.errorDialog "Script not found!"]) := by
    simp [run_script, h]
  refine ⟨by rw [hrun], ?_, by rw [hrun], by rw [hrun]; rfl, ?_⟩
  · rw [hrun]
    show dictGet (dictSet st.mem inp.scriptName inp.now) inp.scriptName = some inp.now
    rw [dictGet_dictSet, if_pos rfl]
  · intro hneq heq
    apply hneq
    rw [← heq, hrun]
    show dictGet (dictSet st.mem inp.scriptName inp.now) inp.scriptName = some inp.now
    rw [dictGet_dictSet, if_pos rfl]

/-- Witness for C8 at a concrete failing run. -/
theorem C8_stamp_before_check_witness :
    ((run_script "B" ⟨"a", "Linux", false, 42⟩ ⟨[], []⟩).1).file = dictSet [] "a" 42 ∧
    (run_script "B" ⟨"a", "Linux", false, 42⟩ ⟨[], []⟩).2 =
      [RunEvent.errorDialog "Script not found!"] ∧
    ((run_script "B" ⟨"a", "Linux", false, 42⟩ ⟨[], []⟩).1).file ≠ ([] : Metadata) := by
  have h := C8_stamp_before_check "B" ⟨"a", "Linux", false, 42⟩ ⟨[], []⟩ rfl
  exact ⟨h.1, h.2.2.1, h.2.2.2.2 (by decide)⟩

/-- C6, as stated ("for every script name, on an unsupported operating
system `run_script` shows the Unsupported-OS dialog and spawns nothing; on
Windows/macOS/Linux it launches the script in a terminal"), is false: when
`scripts/<name>/main.py` does not exist, `run_script` returns after the
"Script not found!" dialog before reaching the OS dispatch.  Concrete
input: a missing script on system "Solaris". -/
theorem C6_counterexample :
    ¬ (∀ (baseDir : String) (inp : RunInput) (st : AppState),
        (inp.system ∉ (["Windows", "Darwin", "Linux"] : List String) →
          RunEvent.errorDialog "Unsupported operating system!" ∈ (run_script baseDir inp st).2 ∧
          spawnCount (run_script baseDir inp st).2 = 0) ∧
        (inp.system ∈ (["Windows", "Darwin", "Linux"] : List String) →
          spawnCount (run_script baseDir inp st).2 = 1)) := by
  intro h
  have h1 := (h "B" ⟨"ghost", "Solaris", false, 7⟩ ⟨[], []⟩).1 (by decide)
  exact absurd h1.1 (by decide)

/-- C6 amended: for every script whose `main.py` exists, `run_script` on an
OS other than Windows/Darwin/Linux shows only the "Unsupported operating
system!" dialog and spawns nothing, and on each of the three it launches
the script with that platform's specific command (when `main.py` is
missing it instead shows "Script not found!" and spawns nothing). -/
theorem C6_amended_os_dispatch (baseDir : String) (inp : RunInput) (st : AppState)
    (h : inp.mainExists = true) :
    (inp.system = "Windows" →
      (run_script baseDir inp st).2 =
        [RunEvent.spawnShell (windows_command inp.scriptName
          (ospJoin (ospJoin (ospJoin (ospJoin baseDir "environments") inp.scriptName)
            "Scripts") "python.exe")
          (ospJoin (ospJoin (ospJoin baseDir "scripts") inp.scriptName) "main.py"))]) ∧
    (inp.system = "Darwin" →
      (run_script baseDir inp st).2 =
        [RunEvent.fileWrite (ospJoin baseDir "run_script.sh")
          (mac_temp_contents inp.scriptName
            (ospJoin (ospJoin (ospJoin (ospJoin baseDir "environments") inp.scriptName)
              "bin") "python")
            (ospJoin (ospJoin (ospJoin baseDir "scripts") inp.scriptName) "main.py")),
         RunEvent.chmodX (ospJoin baseDir "run_script.sh"),
         RunEvent.spawnArgs ["open", "-a", "Terminal.app", ospJoin baseDir "run_script.sh"]]) ∧
    (inp.system = "Linux" →
      (run_script baseDir inp st).2 =
        [RunEvent.spawnArgs ["x-terminal-emulator", "-e",
          linux_terminal_arg inp.scriptName
            (ospJoin (ospJoin (ospJoin (ospJoin baseDir "environments") inp.scriptName)
              "bin") "python")
            (ospJoin (ospJoin (ospJoin baseDir "scripts") inp.scriptName) "main.py")]]) ∧
    (inp.system ∉ (["Windows", "Darwin", "Linux"] : List String) →
      (run_script baseDir inp st).2 = [RunEvent.errorDialog "Unsupported operating system!"] ∧
      spawnCount (run_script baseDir inp st).2 = 0) := by
  have hmain : ¬ (inp.mainExists = false) := by simp [h]
  refine ⟨fun hs => ?_, fun hs => ?_, fun hs => ?_, fun hs => ?_⟩
  · simp [run_script, hmain, hs]
  · simp [run_script, hmain, hs]
  · simp [run_script, hmain, hs]
  · have h1 : ¬ (inp.system = "Windows") := fun hh => hs (by simp [hh])
    have h2 : ¬ (inp.system = "Darwin") := fun hh => hs (by simp [hh])
    have h3 : ¬ (inp.system = "Linux") := fun hh => hs (by simp [hh])
    have he : (run_script baseDir inp st).2
        = [RunEvent.errorDialog "Unsupported operating system!"] := by
      simp [run_script, hmain, h1, h2, h3]
    exact ⟨he, by rw [he]; rfl⟩

/-- Witness for the amended C6 at a concrete Linux run. -/
theorem C6_amended_os_dispatch_witness :
    (run_script "B" ⟨"s", "Linux", true, 3⟩ ⟨[], []⟩).2 =
      [RunEvent.spawnArgs ["x-terminal-emulator", "-e",
        linux_terminal_arg "s"
          (ospJoin (ospJoin (ospJoin (ospJoin "B" "environments") "s") "bin") "python")
          (ospJoin (ospJoin (ospJoin "B" "scripts") "s") "main.py")]] :=
  (C6_amended_os_dispatch "B" ⟨"s", "Linux", true, 3⟩ ⟨[], []⟩ rfl).2.2.1 rfl

theorem decode_fields_map (m : Metadata) :
    decode_fields (m.map (fun p => (p.1, Json.num p.2))) = some m := by
  induction m with
  | nil => rfl
  | cons p rest ih =>
    cases p with
    | mk k v => simp [decode_fields, ih]

/-- C4: the persisted state is one flat JSON object mapping each script name
to its timestamp — its keys are exactly the dict keys (hence unique when the
dict keys are), all its values are numbers and nothing is nested — and the
startup load of that same file restores the map exactly. -/
theorem C4_flat_json_roundtrip (m : Metadata) (h : (keysOf m).Nodup) :
    is_flat_map (save_metadata m) = true ∧
    objKeys (save_metadata m) = keysOf m ∧
    (objKeys (save_metadata m)).Nodup ∧
    startup_metadata true (save_metadata m) = some m := by
  have hkeys : objKeys (save_metadata m) = keysOf m := by
    simp [objKeys, save_metadata, keysOf]
  refine ⟨?_, hkeys, hkeys ▸ h, ?_⟩
  · simp only [is_flat_map, save_metadata, List.all_map, Function.comp]
    simp only [List.all_eq_true, List.mem_map, forall_exists_index, and_imp,
      Prod.forall, Prod.mk.injEq]
    intro a b x y _ _ hb
    rw [← hb]
  · simp [startup_metadata, load_metadata, save_metadata, decode_fields_map]

/-- Witness for C4 at a concrete map. -/
theorem C4_flat_json_roundtrip_witness :
    is_flat_map (save_metadata [("a", 1), ("b", 0)]) = true ∧
    startup_metadata true (save_metadata [("a", 1), ("b", 0)]) = some [("a", 1), ("b", 0)] := by
  have h := C4_flat_json_roundtrip [("a", 1), ("b", 0)] (by decide)
  exact ⟨h.1, h.2.2.2⟩

/-!
## Lemmas: the parsed-version order and `get_latest_available_python_version`
-/

theorem key_le_refl {K : Type} [LinearOrder K] (parse : String → Option K) (a : String) :
    key_le parse a a = true := by
  unfold key_le
  rcases parse a with _ | x <;> simp

theorem key_le_total {K : Type} [LinearOrder K] (parse : String → Option K) (a b : String) :
    key_le parse a b = true ∨ key_le parse b a = true := by
  unfold key_le
  rcases parse a with _ | x <;> rcases parse b with _ | y <;> simp
  exact le_total x y

theorem key_le_trans {K : Type} [LinearOrder K] (parse : String → Option K) (a b c : String) :
    key_le parse a b = true → key_le parse b c = true → key_le parse a c = true := by
  unfold key_le
  rcases parse a with _ | x <;> rcases parse b with _ | y <;> rcases parse c with _ | z <;> simp
  exact fun h1 h2 => le_trans h1 h2

theorem mem_of_getLast?_eq {α : Type} : ∀ {l : List α} {v : α}, l.getLast? = some v → v ∈ l := by
  intro l
  induction l with
  | nil => intro v h; simp [List.getLast?] at h
  | cons a rest ih =>
    intro v h
    cases rest with
    | nil =>
      simp [List.getLast?] at h
      simp [h]
    | cons b t =>
      rw [List.getLast?_cons_cons] at h
      exact List.mem_cons_of_mem a (ih h)

theorem eq_nil_of_getLast?_eq_none {α : Type} {l : List α} (h : l.getLast? = none) :
    l = [] := by
  cases l with
  | nil => rfl
  | cons a t => simp [List.getLast?] at h

theorem rel_of_pairwise_getLast {α : Type} (r : α → α → Prop) (hrefl : ∀ a, r a a) :
    ∀ (l : List α) (v : α), List.Pairwise r l → l.getLast? = some v → ∀ x ∈ l, r x v := by
  intro l
  induction l with
  | nil => intro v _ h; simp [List.getLast?] at h
  | cons a rest ih =>
    intro v hp hl x hx
    rcases List.pairwise_cons.mp hp with ⟨ha, hrest⟩
    cases rest with
    | nil =>
      simp [List.getLast?] at hl
      rcases List.mem_singleton.mp hx with rfl
      rw [← hl]
      exact hrefl x
    | cons b t =>
      rw [List.getLast?_cons_cons] at hl
      rcases List.mem_cons.mp hx with rfl | hx2
      · exact ha v (mem_of_getLast?_eq hl)
      · exact ih v hrest hl x hx2

/-- C9: when `get_latest_available_python_version` succeeds on a list of
available versions, its result is a stable (neither pre-release nor dev)
version matching the prefix that is maximal in the parsed-version order
among all such versions; and it errors exactly when no stable matching
version exists. -/
theorem C9_latest_is_max {K : Type} [LinearOrder K] (parse : String → Option K)
    (isPre isDev : K → Bool) (versions : List String) (pfx : String) :
    (∀ v, get_latest_available_python_version parse isPre isDev (.ok versions) pfx = .ok v →
      v ∈ stable_matching parse isPre isDev versions pfx ∧
      ∀ w ∈ stable_matching parse isPre isDev versions pfx, key_le parse w v = true) ∧
    ((∃ e, get_latest_available_python_version parse isPre isDev (.ok versions) pfx
        = .error e) ↔
      stable_matching parse isPre isDev versions pfx = []) := by
  constructor
  · intro v hv
    unfold get_latest_available_python_version at hv
    dsimp only at hv
    by_cases hm : (versions.filter (fun v => str_startswith v pfx)).isEmpty = true
    · rw [if_pos hm] at hv; exact absurd hv (by simp)
    · rw [if_neg hm] at hv
      by_cases hs : (stable_matching parse isPre isDev versions pfx).isEmpty = true
      · rw [if_pos hs] at hv; exact absurd hv (by simp)
      · rw [if_neg hs] at hv
        rcases hlast : (List.insertionSort (fun a b => key_le parse a b = true)
            (stable_matching parse isPre isDev versions pfx)).getLast? with _ | u
        · rw [hlast] at hv; exact absurd hv (by simp)
        · rw [hlast] at hv
          have hvu : u = v := by simpa using hv
          subst hvu
          have hperm := List.perm_insertionSort (fun a b => key_le parse a b = true)
            (stable_matching parse isPre isDev versions pfx)
          have hmem0 := mem_of_getLast?_eq hlast
          refine ⟨hperm.mem_iff.mp hmem0, ?_⟩
          intro w hw
          haveI : IsTotal String (fun a b => key_le parse a b = true) := ⟨key_le_total parse⟩
          haveI : IsTrans String (fun a b => key_le parse a b = true) :=
            ⟨fun a b c => key_le_trans parse a b c⟩
          have hsorted := List.sorted_insertionSort (fun a b => key_le parse a b = true)
            (stable_matching parse isPre isDev versions pfx)
          exact rel_of_pairwise_getLast _ (key_le_refl parse) _ _ hsorted hlast w
            (hperm.mem_iff.mpr hw)
  · constructor
    · rintro ⟨e, he⟩
      unfold get_latest_available_python_version at he
      dsimp only at he
      by_cases hm : (versions.filter (fun v => str_startswith v pfx)).isEmpty = true
      · have hnilm : versions.filter (fun v => str_startswith v pfx) = [] :=
          List.isEmpty_iff.mp hm
        unfold stable_matching
        rw [hnilm]
        rfl
      · rw [if_neg hm] at he
        by_cases hs : (stable_matching parse isPre isDev versions pfx).isEmpty = true
        · exact List.isEmpty_iff.mp hs
        · rw [if_neg hs] at he
          rcases hlast : (List.insertionSort (fun a b => key_le parse a b = true)
              (stable_matching parse isPre isDev versions pfx)).getLast? with _ | u
          · have hperm := List.perm_insertionSort (fun a b => key_le parse a b = true)
              (stable_matching parse isPre isDev versions pfx)
            rw [eq_nil_of_getLast?_eq_none hlast] at hperm
            exact List.perm_nil.mp hperm.symm
          · rw [hlast] at he
            exact absurd he (by simp)
    · intro hnil
      by_cases hm : (versions.filter (fun v => str_startswith v pfx)).isEmpty = true
      · exact ⟨_, by unfold get_latest_available_python_version; dsimp only; rw [if_pos hm]⟩
      · have hs : (stable_matching parse isPre isDev versions pfx).isEmpty = true := by
          rw [hnil]; rfl
        exact ⟨_, by
          unfold get_latest_available_python_version
          dsimp only
          rw [if_neg hm, if_pos hs]⟩

/-- Witness for C9 with a concrete parser (string length as the version
key) and a concrete version list. -/
theorem C9_latest_is_max_witness :
    "3.10" ∈ stable_matching (fun s : String => some s.length) (fun _ => false) (fun _ => false)
      ["2.7", "3.8", "3.10"] "3" ∧
    ∀ w ∈ stable_matching (fun s : String => some s.length) (fun _ => false) (fun _ => false)
      ["2.7", "3.8", "3.10"] "3",
      key_le (fun s : String => some s.length) w "3.10" = true :=
  (C9_latest_is_max (fun s : String => some s.length) (fun _ => false) (fun _ => false)
    ["2.7", "3.8", "3.10"] "3").1 "3.10" (by rfl)

/-!
## Lemmas: the `run_setup` trace
-/

theorem get_latest_no_valueError {K : Type} [LinearOrder K] (parse : String → Option K)
    (isPre isDev : K → Bool) (avail : Except PyExc (List String)) (pfx m : String) :
    get_latest_available_python_version parse isPre isDev avail pfx
      ≠ Except.error (PyExc.valueError m) := by
  unfold get_latest_available_python_version
  cases avail with
  | error e => simp
  | ok versions =>
    dsimp only
    by_cases hm : (versions.filter (fun v => str_startswith v pfx)).isEmpty = true
    · rw [if_pos hm]; simp
    · rw [if_neg hm]
      by_cases hs : (stable_matching parse isPre isDev versions pfx).isEmpty = true
      · rw [if_pos hs]; simp
      · rw [if_neg hs]
        rcases hx : (List.insertionSort (fun a b => key_le parse a b = true)
            (stable_matching parse isPre isDev versions pfx)).getLast? with _ | u <;>
          simp [hx]

theorem setup_pip_spec (w : SetupWorld) (s : String) :
    StepSpec [CmdKind.pipInstall] (setup_pip_step w s) := by
  unfold StepSpec setup_pip_step
  cases hp : w.pipOutcome with
  | ok =>
    refine ⟨?_, ?_, ?_, fun k => ?_⟩
    · simp [List.countP_cons, List.countP_nil, isErrorDialogEvt]
    · simp [List.countP_cons, List.countP_nil, isInstallWinEvt]
    · simp [List.countP_cons, List.countP_nil, isSuccessInfoEvt]
    · cases k <;> simp +decide [cmdCount, List.countP_cons, List.countP_nil]
  | fail m =>
    refine ⟨?_, ?_, ?_, fun k => ?_⟩
    · simp [List.countP_cons, List.countP_nil, isErrorDialogEvt]
    · simp [List.countP_cons, List.countP_nil, isInstallWinEvt]
    · simp [List.countP_cons, List.countP_nil, isSuccessInfoEvt]
    · cases k <;> simp +decide [cmdCount, List.countP_cons, List.countP_nil]

theorem setup_env_spec (w : SetupWorld) (s : String) :
    StepSpec [CmdKind.venvCreate, CmdKind.pipInstall] (setup_env_step w s) := by
  obtain ⟨h1, h2, h3, h4⟩ := setup_pip_spec w s
  unfold StepSpec setup_env_step
  by_cases he : w.envExists = true
  · rw [if_pos he]
    refine ⟨h1, h2, h3, fun k => ?_⟩
    have h5 := h4 k
    cases k <;> simp +decide [-List.countP_eq_zero] at h5 ⊢ <;> omega
  · rw [if_neg he]
    cases hv : w.venvOutcome with
    | ok =>
      refine ⟨?_, ?_, ?_, fun k => ?_⟩
      · simp [List.countP_cons, isErrorDialogEvt, h1]
      · simp [List.countP_cons, isInstallWinEvt, h2]
      · simp [List.countP_cons, isSuccessInfoEvt, h3]
      · have h5 := h4 k
        cases k <;> simp +decide [cmdCount, List.countP_cons, -List.countP_eq_zero] at h5 ⊢ <;> omega
    | fail m =>
      refine ⟨?_, ?_, ?_, fun k => ?_⟩
      · simp [List.countP_cons, List.countP_nil, isErrorDialogEvt]
      · simp [List.countP_cons, List.countP_nil, isInstallWinEvt]
      · simp [List.countP_cons, List.countP_nil, isSuccessInfoEvt]
      · cases k <;> simp +decide [cmdCount, List.countP_cons, List.countP_nil]

theorem setup_which_spec (w : SetupWorld) (s pv : String) :
    StepSpec [CmdKind.pyenvWhich, CmdKind.venvCreate, CmdKind.pipInstall]
      (setup_which_step w s pv) := by
  obtain ⟨h1, h2, h3, h4⟩ := setup_env_spec w s
  unfold StepSpec setup_which_step
  cases hw : get_pyenv_python_path pv w.whichOutcome with
  | error e =>
    refine ⟨?_, ?_, ?_, fun k => ?_⟩
    · simp [List.countP_cons, List.countP_nil, isErrorDialogEvt]
    · simp [List.countP_cons, List.countP_nil, isInstallWinEvt]
    · simp [List.countP_cons, List.countP_nil, isSuccessInfoEvt]
    · cases k <;> simp +decide [cmdCount, List.countP_cons, List.countP_nil]
  | ok pyexe =>
    dsimp only
    by_cases hpe : str_isEmpty pyexe = true
    · rw [if_pos hpe]
      refine ⟨?_, ?_, ?_, fun k => ?_⟩
      · simp [List.countP_cons, List.countP_nil, isErrorDialogEvt]
      · simp [List.countP_cons, List.countP_nil, isInstallWinEvt]
      · simp [List.countP_cons, List.countP_nil, isSuccessInfoEvt]
      · cases k <;> simp +decide [cmdCount, List.countP_cons, List.countP_nil]
    · rw [if_neg hpe]
      refine ⟨?_, ?_, ?_, fun k => ?_⟩
      · simp [List.countP_cons, isErrorDialogEvt, h1]
      · simp [List.countP_cons, isInstallWinEvt, h2]
      · simp [List.countP_cons, isSuccessInfoEvt, h3]
      · have h5 := h4 k
        cases k <;> simp +decide [cmdCount, List.countP_cons, -List.countP_eq_zero] at h5 ⊢ <;> omega

theorem setup_install_spec (w : SetupWorld) (s pv : String) :
    StepSpec [CmdKind.checkInstalled, CmdKind.pyenvInstall, CmdKind.pyenvWhich,
      CmdKind.venvCreate, CmdKind.pipInstall] (setup_install_step w s pv) := by
  obtain ⟨h1, h2, h3, h4⟩ := setup_which_spec w s pv
  unfold StepSpec setup_install_step
  by_cases hi : w.installed = true
  · rw [if_pos hi]
    refine ⟨?_, ?_, ?_, fun k => ?_⟩
    · simp [List.countP_cons, isErrorDialogEvt, h1]
    · simp [List.countP_cons, isInstallWinEvt, h2]
    · simp [List.countP_cons, isSuccessInfoEvt, h3]
    · have h5 := h4 k
      cases k <;> simp +decide [cmdCount, List.countP_cons, -List.countP_eq_zero] at h5 ⊢ <;> omega
  · rw [if_neg hi]
    cases hio : w.installOutcome with
    | notFound m =>
      refine ⟨?_, ?_, ?_, fun k => ?_⟩
      · simp [List.countP_cons, List.countP_nil, isErrorDialogEvt]
      · simp [List.countP_cons, List.countP_nil, isInstallWinEvt]
      · simp [List.countP_cons, List.countP_nil, isSuccessInfoEvt]
      · cases k <;> simp +decide [cmdCount, List.countP_cons, List.countP_nil]
    | ran rc out err =>
      dsimp only
      by_cases hrc : rc ≠ 0
      · rw [if_pos hrc]
        refine ⟨?_, ?_, ?_, fun k => ?_⟩
        · simp [List.countP_cons, List.countP_nil, isErrorDialogEvt]
        · simp [List.countP_cons, List.countP_nil, isInstallWinEvt]
        · simp [List.countP_cons, List.countP_nil, isSuccessInfoEvt]
        · cases k <;> simp +decide [cmdCount, List.countP_cons, List.countP_nil]
      · rw [if_neg hrc]
        refine ⟨?_, ?_, ?_, fun k => ?_⟩
        · simp [List.countP_append, List.countP_cons, List.countP_nil, isErrorDialogEvt, h1]
        · simp [List.countP_append, List.countP_cons, List.countP_nil, isInstallWinEvt, h2]
        · simp [List.countP_append, List.countP_cons, List.countP_nil, isSuccessInfoEvt, h3]
        · have h5 := h4 k
          cases k <;>
            simp +decide [cmdCount, List.countP_append, List.countP_cons, List.countP_nil,
              -List.countP_eq_zero] at h5 ⊢ <;> omega

theorem setup_pip_no_early (w : SetupWorld) (s m : String) :
    (setup_pip_step w s).2 ≠ BodyExit.earlyValueError m := by
  unfold setup_pip_step
  cases w.pipOutcome <;> simp

theorem setup_env_no_early (w : SetupWorld) (s m : String) :
    (setup_env_step w s).2 ≠ BodyExit.earlyValueError m := by
  unfold setup_env_step
  by_cases he : w.envExists = true
  · rw [if_pos he]
    exact setup_pip_no_early w s m
  · rw [if_neg he]
    cases hv : w.venvOutcome with
    | ok =>
      dsimp only
      exact setup_pip_no_early w s m
    | fail mm => simp

theorem setup_which_no_early (w : SetupWorld) (s pv m : String) :
    (setup_which_step w s pv).2 ≠ BodyExit.earlyValueError m := by
  unfold setup_which_step
  cases hw : get_pyenv_python_path pv w.whichOutcome with
  | error e => simp
  | ok pyexe =>
    dsimp only
    by_cases hpe : str_isEmpty pyexe = true
    · rw [if_pos hpe]; simp
    · rw [if_neg hpe]
      exact setup_env_no_early w s m

theorem setup_install_no_early (w : SetupWorld) (s pv m : String) :
    (setup_install_step w s pv).2 ≠ BodyExit.earlyValueError m := by
  unfold setup_install_step
  by_cases hi : w.installed = true
  · rw [if_pos hi]
    dsimp only
    exact setup_which_no_early w s pv m
  · rw [if_neg hi]
    cases hio : w.installOutcome with
    | notFound mm => simp
    | ran rc out err =>
      dsimp only
      by_cases hrc : rc ≠ 0
      · rw [if_pos hrc]; simp
      · rw [if_neg hrc]
        dsimp only
        exact setup_which_no_early w s pv m

theorem setup_body_spec {K : Type} [LinearOrder K] (parse : String → Option K)
    (isPre isDev : K → Bool) (w : SetupWorld) (s pv_input : String) :
    StepSpec [CmdKind.listVersions, CmdKind.checkInstalled, CmdKind.pyenvInstall,
      CmdKind.pyenvWhich, CmdKind.venvCreate, CmdKind.pipInstall]
      (setup_body parse isPre isDev w s pv_input) ∧
    ∀ m, (setup_body parse isPre isDev w s pv_input).2 ≠ BodyExit.earlyValueError m := by
  unfold StepSpec setup_body
  cases hres : get_latest_available_python_version parse isPre isDev
      (get_available_python_versions w.listOutcome) pv_input with
  | error e =>
    cases e with
    | valueError m =>
      exact absurd hres (get_latest_no_valueError parse isPre isDev _ pv_input m)
    | runtimeError m =>
      refine ⟨⟨?_, ?_, ?_, fun k => ?_⟩, by simp⟩
      · simp [List.countP_cons, List.countP_nil, isErrorDialogEvt]
      · simp [List.countP_cons, List.countP_nil, isInstallWinEvt]
      · simp [List.countP_cons, List.countP_nil, isSuccessInfoEvt]
      · cases k <;> simp +decide [cmdCount, List.countP_cons, List.countP_nil]
    | fileNotFound m =>
      refine ⟨⟨?_, ?_, ?_, fun k => ?_⟩, by simp⟩
      · simp [List.countP_cons, List.countP_nil, isErrorDialogEvt]
      · simp [List.countP_cons, List.countP_nil, isInstallWinEvt]
      · simp [List.countP_cons, List.countP_nil, isSuccessInfoEvt]
      · cases k <;> simp +decide [cmdCount, List.countP_cons, List.countP_nil]
  | ok pv =>
    obtain ⟨h1, h2, h3, h4⟩ := setup_install_spec w s pv
    refine ⟨⟨?_, ?_, ?_, fun k => ?_⟩, ?_⟩
    · simp [List.countP_cons, isErrorDialogEvt, h1]
    · simp [List.countP_cons, isInstallWinEvt, h2]
    · simp [List.countP_cons, isSuccessInfoEvt, h3]
    · have h5 := h4 k
      cases k <;> simp +decide [cmdCount, List.countP_cons, -List.countP_eq_zero] at h5 ⊢ <;> omega
    · intro m
      exact setup_install_no_early w s pv m

theorem trace_assembly_spec (ev : List UIEvent) (ex : BodyExit) (hasButton : Bool)
    (t : List UIEvent)
    (ht : t = (if hasButton then [UIEvent.disableRun] else []) ++
      UIEvent.status "Setting up virtual environment..." :: ev ++
      (match ex with
       | .success => []
       | .earlyValueError m => [UIEvent.errorDialog m]
       | .raised m => UIEvent.errorDialog m ::
           (if pyenv_missing_trigger m then [UIEvent.installPyenvWindow] else [])) ++
      (if hasButton then [UIEvent.enableRun] else []) ++ [UIEvent.resetStatus])
    (h1 : ev.countP isErrorDialogEvt = 0)
    (h2 : ev.countP isInstallWinEvt = 0)
    (h3 : ev.countP isSuccessInfoEvt = (if ex = BodyExit.success then 1 else 0))
    (h4 : ∀ k, cmdCount ev k ≤ 1)
    (hne : ∀ m, ex ≠ BodyExit.earlyValueError m) :
    ((t.countP isErrorDialogEvt = 1 ∧ t.countP isSuccessInfoEvt = 0) ∨
     (t.countP isErrorDialogEvt = 0 ∧ t.countP isSuccessInfoEvt = 1 ∧
       t.countP isInstallWinEvt = 0)) ∧
    (∀ m, UIEvent.errorDialog m ∈ t →
      (UIEvent.installPyenvWindow ∈ t ↔ pyenv_missing_trigger m = true)) ∧
    t.countP isInstallWinEvt ≤ 1 ∧
    (∀ k, cmdCount t k ≤ 1) := by
  have herr_not_ev : ∀ m', UIEvent.errorDialog m' ∉ ev :=
    fun m' hmem => (List.countP_eq_zero.mp h1 _ hmem) rfl
  have hwin_not_ev : UIEvent.installPyenvWindow ∉ ev :=
    fun hmem => (List.countP_eq_zero.mp h2 _ hmem) rfl
  subst ht
  cases ex with
  | earlyValueError m => exact absurd rfl (hne m)
  | success =>
    dsimp only
    simp only [if_pos rfl] at h3
    refine ⟨Or.inr ⟨?_, ?_, ?_⟩, ?_, ?_, fun k => ?_⟩
    · cases hasButton <;>
        simp [List.countP_append, List.countP_cons, List.countP_nil,
          isErrorDialogEvt, h1]
    · cases hasButton <;>
        simp [List.countP_append, List.countP_cons, List.countP_nil,
          isSuccessInfoEvt, h3]
    · cases hasButton <;>
        simp [List.countP_append, List.countP_cons, List.countP_nil,
          isInstallWinEvt, h2]
    · intro m hm
      exfalso
      cases hasButton <;>
        simp [List.mem_append, List.mem_cons, herr_not_ev m] at hm
    · cases hasButton <;>
        simp [List.countP_append, List.countP_cons, List.countP_nil,
          isInstallWinEvt, h2]
    · have h5 := h4 k
      simp only [cmdCount] at h5 ⊢
      cases hasButton <;>
        simp [List.countP_append, List.countP_cons, List.countP_nil] <;> omega
  | raised m =>
    dsimp only
    have h3' : ev.countP isSuccessInfoEvt = 0 := by simpa using h3
    by_cases htr : pyenv_missing_trigger m = true
    · rw [if_pos htr]
      refine ⟨Or.inl ⟨?_, ?_⟩, ?_, ?_, fun k => ?_⟩
      · cases hasButton <;>
          simp [List.countP_append, List.countP_cons, List.countP_nil,
            isErrorDialogEvt, isInstallWinEvt, h1]
      · cases hasButton <;>
          simp [List.countP_append, List.countP_cons, List.countP_nil,
            isSuccessInfoEvt, h3']
      · intro m' hm'
        have hm'm : m' = m := by
          cases hasButton <;>
            simp [List.mem_append, List.mem_cons, herr_not_ev m'] at hm' <;>
            exact hm'
        subst hm'm
        constructor
        · intro _; exact htr
        · intro _
          cases hasButton <;> simp [List.mem_append, List.mem_cons]
      · cases hasButton <;>
          simp [List.countP_append, List.countP_cons, List.countP_nil,
            isInstallWinEvt, h2]
      · have h5 := h4 k
        simp only [cmdCount] at h5 ⊢
        cases hasButton <;>
          simp [List.countP_append, List.countP_cons, List.countP_nil] <;> omega
    · rw [if_neg htr]
      refine ⟨Or.inl ⟨?_, ?_⟩, ?_, ?_, fun k => ?_⟩
      · cases hasButton <;>
          simp [List.countP_append, List.countP_cons, List.countP_nil,
            isErrorDialogEvt, h1]
      · cases hasButton <;>
          simp [List.countP_append, List.countP_cons, List.countP_nil,
            isSuccessInfoEvt, h3']
      · intro m' hm'
        have hm'm : m' = m := by
          cases hasButton <;>
            simp [List.mem_append, List.mem_cons, herr_not_ev m'] at hm' <;>
            exact hm'
        subst hm'm
        constructor
        · intro hw
          exfalso
          cases hasButton <;>
            simp [List.mem_append, List.mem_cons, hwin_not_ev] at hw
        · intro hq
          exact absurd hq htr
      · cases hasButton <;>
          simp [List.countP_append, List.countP_cons, List.countP_nil,
            isInstallWinEvt, h2]
      · have h5 := h4 k
        simp only [cmdCount] at h5 ⊢
        cases hasButton <;>
          simp [List.countP_append, List.countP_cons, List.countP_nil] <;> omega

/-- C5: every background `run_setup` execution ends either with exactly one
modal error dialog (and no success dialog) or with the success dialog (and
no error dialog, no pyenv guide); the pyenv installation-guide window
accompanies the single error dialog exactly when the error message matches
the pyenv-missing check of app.py:199-202, is shown at most once, and no
external command is issued more than once (no retry or recovery). -/
theorem C5_single_error_dialog {K : Type} [LinearOrder K] (parse : String → Option K)
    (isPre isDev : K → Bool) (w : SetupWorld) (script_name pv_input : String)
    (hasRunButton : Bool) (t : List UIEvent)
    (ht : t = setup_venv_trace parse isPre isDev w script_name pv_input hasRunButton) :
    ((t.countP isErrorDialogEvt = 1 ∧ t.countP isSuccessInfoEvt = 0) ∨
     (t.countP isErrorDialogEvt = 0 ∧ t.countP isSuccessInfoEvt = 1 ∧
       t.countP isInstallWinEvt = 0)) ∧
    (∀ m, UIEvent.errorDialog m ∈ t →
      (UIEvent.installPyenvWindow ∈ t ↔ pyenv_missing_trigger m = true)) ∧
    t.countP isInstallWinEvt ≤ 1 ∧
    (∀ k, cmdCount t k ≤ 1) := by
  obtain ⟨⟨h1, h2, h3, h4⟩, hne⟩ := setup_body_spec parse isPre isDev w script_name pv_input
  refine trace_assembly_spec (setup_body parse isPre isDev w script_name pv_input).1
    (setup_body parse isPre isDev w script_name pv_input).2 hasRunButton t ?_ h1 h2 h3
    (fun k => le_trans (h4 k) (by split <;> omega)) hne
  rw [ht]
  unfold setup_venv_trace
  rfl

/-- Witness for C5: a concrete world where locating the interpreter fails
because pyenv is missing; the single error dialog's message triggers the
installation guide. -/
theorem C5_single_error_dialog_witness :
    (setup_venv_trace (fun s : String => some s.length) (fun _ => false) (fun _ => false)
      ⟨SubprocOutcome.ran 0 "3.10.2" "", true, SubprocOutcome.ran 0 "" "",
       SubprocOutcome.notFound "no pyenv", true, CheckedOutcome.ok, CheckedOutcome.ok⟩
      "s" "3" true).countP isErrorDialogEvt = 1 ∧
    (UIEvent.installPyenvWindow ∈
      setup_venv_trace (fun s : String => some s.length) (fun _ => false) (fun _ => false)
        ⟨SubprocOutcome.ran 0 "3.10.2" "", true, SubprocOutcome.ran 0 "" "",
         SubprocOutcome.notFound "no pyenv", true, CheckedOutcome.ok, CheckedOutcome.ok⟩
        "s" "3" true ↔
      pyenv_missing_trigger "pyenv is not installed or not in PATH." = true) := by
  have h := C5_single_error_dialog (fun s : String => some s.length) (fun _ => false)
    (fun _ => false)
    ⟨SubprocOutcome.ran 0 "3.10.2" "", true, SubprocOutcome.ran 0 "" "",
     SubprocOutcome.notFound "no pyenv", true, CheckedOutcome.ok, CheckedOutcome.ok⟩
    "s" "3" true _ rfl
  exact ⟨by decide, h.2.1 "pyenv is not installed or not in PATH." (by decide)⟩
